import Mathlib

/-!
Verification of the `sqlinsert` Go package (package `sqlinsert`, files
`insert.go` and `token.go`): a shallow embedding of the token generation,
statement building, argument marshalling, and the prepare/exec driver of
SQL INSERT statements, together with proofs of the specified properties.

Records are Go structs reached through reflection; we embed a struct type
as the ordered list of its fields (each carrying its `col` struct-tag
value) and a struct value as the ordered list of (field, value) pairs.
Field values are opaque to the builder (`interface{}` in Go), so the
embedding is polymorphic in the value type `α`.  Reflection panics
(indexing an empty slice) are modelled with `Option`.
-/

namespace SqlInsert

/-- The `TokenType` enumeration from token.go: the enumerated rendering choices for a
column or value token. -/
inductive TokenType where
  | columnName
  | questionMark
  | atColumnName
  | ordinalNumber
  | colon
deriving DecidableEq, Repr

/-- One struct field as reflection sees it: the value of the struct tag
selected by `UseStructTag` (default key `col`).  `Tag.Get` returns the
empty string when the tag is absent, so `tag` may be empty. -/
structure Field where
  tag : String
deriving DecidableEq, Repr

/-- A Go struct value: its fields in declared order, each paired with its
(opaque) field value.  The reflected type of the struct is the first
projection, the field values the second. -/
abbrev Record (α : Type) := List (Field × α)

/-- The `reflect.Type` information of a record: its fields in declared order. -/
def recType {α : Type} (r : Record α) : List Field :=
  r.map Prod.fst

/-- The field values of a record in declared order
(`rec.Field(i).Interface()` for each `i`). -/
def fieldVals {α : Type} (r : Record α) : List α :=
  r.map Prod.snd

/-- The body of the `switch tokenType` in `Tokenize` (token.go): the text
written for field `i` (0-based) of the record type. -/
def fieldToken (f : Field) (i : Nat) : TokenType → String
  | .columnName => f.tag
  | .questionMark => "?"
  | .atColumnName => "@" ++ f.tag
  | .ordinalNumber => "$" ++ toString (i + 1)
  | .colon => ":" ++ f.tag

/-- The loop of `Tokenize` (token.go), starting at field index `i`: write
the token for each field and a `,` after every token except the last
(`if i < recordType.NumField()-1`). -/
def writeTokens : List Field → Nat → TokenType → String
  | [], _, _ => ""
  | [f], i, tt => fieldToken f i tt
  | f :: g :: rest, i, tt => fieldToken f i tt ++ "," ++ writeTokens (g :: rest) (i + 1) tt

/-- Embeds `Tokenize` from token.go: the comma-separated tokens of a record type,
enclosed in parentheses. -/
def Tokenize (recordType : List Field) (tokenType : TokenType) : String :=
  "(" ++ writeTokens recordType 0 tokenType ++ ")"

/-- The `Insert.Data` field may hold a struct, a struct pointer, a slice of structs,
or a slice of struct pointers; the four cases the reflection code in
insert.go distinguishes by `Kind()`. -/
inductive Data (α : Type) where
  | value (r : Record α)
  | pointer (r : Record α)
  | sliceVal (rs : List (Record α))
  | slicePtr (rs : List (Record α))

/-- The `Insert` struct from insert.go: table name and row data. -/
structure Insert (α : Type) where
  Table : String
  Data : Data α

/-- Embeds `Insert.Columns` (insert.go): tokenize the first record's type with
`ColumnNameTokenType`.  `v.Index(0)` on an empty slice panics in Go;
that is `none` here. -/
def Insert.Columns {α : Type} (ins : Insert α) : Option String :=
  match ins.Data with
  | .sliceVal [] => none
  | .sliceVal (r :: _) => some (Tokenize (recType r) .columnName)
  | .slicePtr [] => none
  | .slicePtr (r :: _) => some (Tokenize (recType r) .columnName)
  | .pointer r => some (Tokenize (recType r) .columnName)
  | .value r => some (Tokenize (recType r) .columnName)

/-- The loop `for i := 1; i < v.Len(); i++` of `Insert.Params`: for each
slice element after the first, write `,` and the (already computed)
single-row group again. -/
def writeParamRows {α : Type} : List (Record α) → String → String
  | [], _ => ""
  | _ :: rest, paramRow => "," ++ paramRow ++ writeParamRows rest paramRow

/-- Embeds `Insert.Params` (insert.go).  For a slice, the single-row group is
tokenized once from the first element's type, written once, and then
`,` + the same group is written for each further element.  The value
token kind is the global `UseTokenType`, read at render time and passed
explicitly here. -/
def Insert.Params {α : Type} (ins : Insert α) (useTokenType : TokenType) : Option String :=
  match ins.Data with
  | .sliceVal [] => none
  | .sliceVal (r :: rest) =>
      let paramRow := Tokenize (recType r) useTokenType
      some (paramRow ++ writeParamRows rest paramRow)
  | .slicePtr [] => none
  | .slicePtr (r :: rest) =>
      let paramRow := Tokenize (recType r) useTokenType
      some (paramRow ++ writeParamRows rest paramRow)
  | .pointer r => some (Tokenize (recType r) useTokenType)
  | .value r => some (Tokenize (recType r) useTokenType)

/-- The `%s`-substitution of `fmt.Fprintf` as used by `Insert.SQL`: each `%s`
in the format consumes the next argument verbatim. -/
def substPercentS : List Char → List String → List Char
  | [], _ => []
  | '%' :: 's' :: rest, a :: as => a.data ++ substPercentS rest as
  | c :: rest, as => c :: substPercentS rest as

/-- Embeds `fmt.Sprintf` restricted to `%s` verbs, the only verb `Insert.SQL`
uses. -/
def goSprintf (format : String) (args : List String) : String :=
  ⟨substPercentS format.data args⟩

/-- Embeds `Insert.SQL` (insert.go):
`fmt.Fprintf(&b, "INSERT INTO %s %s VALUES %s", ins.Table, ins.Columns(), ins.Params())`. -/
def Insert.SQL {α : Type} (ins : Insert α) (useTokenType : TokenType) : Option String := do
  let c ← ins.Columns
  let p ← ins.Params useTokenType
  return goSprintf "INSERT INTO %s %s VALUES %s" [ins.Table, c, p]

/-- One row's contribution to `Insert.Args` in the slice case: the inner
loop reads fields `0 .. numFieldsPerRec-1` of the current record, where
`numFieldsPerRec` is the field count of the FIRST record's type; reading
past the record's own field count panics in Go (`none` here). -/
def argsOfRow {α : Type} (numFieldsPerRec : Nat) (r : Record α) : Option (List α) :=
  if numFieldsPerRec ≤ r.length then some ((fieldVals r).take numFieldsPerRec) else none

/-- Embeds `Insert.Args` (insert.go): the flattened bind arguments.  Slice case:
`numRecs * numFieldsPerRec` values, filled row by row, each row
dereferenced through `Elem()` when the elements are pointers; single
record case: that record's field values in field order. -/
def Insert.Args {α : Type} (ins : Insert α) : Option (List α) :=
  match ins.Data with
  | .sliceVal [] => none
  | .sliceVal (r :: rest) =>
      (List.mapM (argsOfRow (recType r).length) (r :: rest)).map List.flatten
  | .slicePtr [] => none
  | .slicePtr (r :: rest) =>
      (List.mapM (argsOfRow (recType r).length) (r :: rest)).map List.flatten
  | .pointer r => some (fieldVals r)
  | .value r => some (fieldVals r)

/-- An opaque prepared-statement handle (`*sql.Stmt`); the builder never
looks inside it. -/
structure Stmt where
  id : Nat
deriving DecidableEq, Repr

/-- One call made by `Insert.Insert` / `Insert.InsertContext` on the
executor or on the prepared handle, recorded in order. -/
inductive Call (α Ctx : Type) where
  | prepare (query : String)
  | prepareContext (ctx : Ctx) (query : String)
  | exec (stmt : Stmt) (args : List α)
  | execContext (stmt : Stmt) (ctx : Ctx) (args : List α)
  | close (stmt : Stmt)
deriving DecidableEq, Repr

/-- Whether a recorded call is a `PrepareContext` call. -/
def Call.isPrepareContext {α Ctx : Type} : Call α Ctx → Bool
  | .prepareContext _ _ => true
  | _ => false

/-- Whether a recorded call is an `Exec` or `ExecContext` call. -/
def Call.isExec {α Ctx : Type} : Call α Ctx → Bool
  | .exec _ _ => true
  | .execContext _ _ _ => true
  | _ => false

/-- Whether a recorded call is a `Close` on the given handle. -/
def Call.isCloseOf {α Ctx : Type} (s : Stmt) : Call α Ctx → Bool
  | .close s' => s' = s
  | _ => false

/-- The behaviour of the external executor (`InsertWith`) and of the
prepared handles it returns: what `Prepare`/`PrepareContext` return for a
query, and whether `Exec`/`ExecContext` on a handle fails (the
`sql.Result` is discarded by the caller, so only the error matters). -/
structure DB (α Ctx E : Type) where
  prepare : String → Except E Stmt
  prepareContext : Ctx → String → Except E Stmt
  stmtExec : Stmt → List α → Option E
  stmtExecContext : Stmt → Ctx → List α → Option E

/-- The outcome of one `Insert.Insert` / `Insert.InsertContext` call: the
calls made in order, the returned `*sql.Stmt`, and the returned error. -/
structure Outcome (α Ctx E : Type) where
  trace : List (Call α Ctx)
  retStmt : Option Stmt
  retErr : Option E
deriving DecidableEq

/-- Embeds `Insert.Insert` (insert.go): `stmt, err := with.Prepare(ins.SQL())`;
on error return `(nil, err)`; otherwise `defer stmt.Close()`, run
`stmt.Exec(ins.Args()...)`, and return `(stmt, err)` — the handle value
is returned (closed) on both the success and the exec-error path. -/
def Insert.run {α Ctx E : Type} (ins : Insert α) (useTokenType : TokenType)
    (db : DB α Ctx E) : Option (Outcome α Ctx E) := do
  let sql ← ins.SQL useTokenType
  match db.prepare sql with
  | .error err => return ⟨[.prepare sql], none, some err⟩
  | .ok stmt => do
      let args ← ins.Args
      let execErr := db.stmtExec stmt args
      return ⟨[.prepare sql, .exec stmt args, .close stmt], some stmt, execErr⟩

/-- Embeds `Insert.InsertContext` (insert.go): identical to `Insert.run` except
that the exec step is `stmt.ExecContext(ctx, ins.Args()...)`.  The
prepare step is `with.Prepare(ins.SQL())` in the source — NOT
`PrepareContext`. -/
def Insert.runContext {α Ctx E : Type} (ins : Insert α) (useTokenType : TokenType)
    (ctx : Ctx) (db : DB α Ctx E) : Option (Outcome α Ctx E) := do
  let sql ← ins.SQL useTokenType
  match db.prepare sql with
  | .error err => return ⟨[.prepare sql], none, some err⟩
  | .ok stmt => do
      let args ← ins.Args
      let execErr := db.stmtExecContext stmt ctx args
      return ⟨[.prepare sql, .execContext stmt ctx args, .close stmt], some stmt, execErr⟩

/-! ### Specification-side characterisations

These definitions follow the spec's words and are compared with the
source embedding by the theorems below. -/

/-- Comma-joining as the spec describes it: tokens separated by `,`. -/
def commaJoin : List String → String
  | [] => ""
  | [x] => x
  | x :: y :: rest => x ++ "," ++ commaJoin (y :: rest)

/-- The token list of a record type under a kind, starting numbering at
field index `i`. -/
def tokensFrom : List Field → Nat → TokenType → List String
  | [], _, _ => []
  | f :: rest, i, tt => fieldToken f i tt :: tokensFrom rest (i + 1) tt

/-- The token list of a record type under a kind (numbering from the
first field). -/
def tokensOf (rt : List Field) (tt : TokenType) : List String :=
  tokensFrom rt 0 tt

/-- The single-row ordinal placeholder group `($1,$2,...,$k)` the spec
describes for the dollar-number dialect. -/
def ordinalGroup (k : Nat) : String :=
  "(" ++ commaJoin ((List.range k).map fun i => "$" ++ toString (i + 1)) ++ ")"

/-! ### Concrete instances used by the worked examples

Go field values are `interface{}`; the builder passes them through
unexamined, so any value type instantiates the embedding.  `GoValue`
covers the values appearing in the spec's round-trip example: a string
and the float64 `1.5` (exactly representable, embedded as the rational
`3/2`). -/

/-- Opaque Go values for the worked examples. -/
inductive GoValue where
  | str (s : String)
  | f64 (q : Rat)
deriving DecidableEq, Repr

/-- The spec's round-trip record: fields `id="x"`, `weight=1.5`. -/
def exampleRec : Record GoValue :=
  [(⟨"id"⟩, .str "x"), (⟨"weight"⟩, .f64 (3 / 2))]

/-- The handle the example executors hand out. -/
def exStmt : Stmt := ⟨1⟩

/-- An executor whose prepare and exec both succeed. -/
def exDBOk : DB GoValue Nat String where
  prepare := fun _ => .ok exStmt
  prepareContext := fun _ _ => .ok exStmt
  stmtExec := fun _ _ => none
  stmtExecContext := fun _ _ _ => none

/-- An executor whose prepare succeeds and whose exec fails. -/
def exDBExecFail : DB GoValue Nat String where
  prepare := fun _ => .ok exStmt
  prepareContext := fun _ _ => .ok exStmt
  stmtExec := fun _ _ => some "exec failed"
  stmtExecContext := fun _ _ _ => some "exec failed"

/-- An executor whose prepare fails. -/
def exDBPrepFail : DB GoValue Nat String where
  prepare := fun _ => .error "prepare failed"
  prepareContext := fun _ _ => .error "prepare failed"
  stmtExec := fun _ _ => none
  stmtExecContext := fun _ _ _ => none

/-- The SQL text the builder produces for `exampleRec` under the
question-mark kind. -/
def exSQL : String := "INSERT INTO t (id,weight) VALUES (?,?)"

/-- The bind arguments the builder produces for `exampleRec`. -/
def exArgs : List GoValue := [.str "x", .f64 (3 / 2)]

/-- The outcome of `InsertContext` on `exampleRec` against `exDBOk` with
cancellation context `7`: note the first call is a plain `Prepare`. -/
def exOutcomeCtx : Outcome GoValue Nat String :=
  ⟨[.prepare exSQL, .execContext exStmt 7 exArgs, .close exStmt], some exStmt, none⟩

/-- The outcome of `Insert` on `exampleRec` against `exDBExecFail`: the
exec error is passed through and the closed handle is returned. -/
def exOutcomeExecFail : Outcome GoValue Nat String :=
  ⟨[.prepare exSQL, .exec exStmt exArgs, .close exStmt], some exStmt,
    some "exec failed"⟩

/-! ### Supporting lemmas -/

theorem writeTokens_eq_commaJoin (rt : List Field) (i : Nat) (tt : TokenType) :
    writeTokens rt i tt = commaJoin (tokensFrom rt i tt) := by
  induction rt generalizing i with
  | nil => rfl
  | cons f rest ih =>
    cases rest with
    | nil => rfl
    | cons g rest' =>
      simp only [writeTokens, tokensFrom, commaJoin]
      rw [ih]
      simp only [tokensFrom]

theorem tokensFrom_length (rt : List Field) (i : Nat) (tt : TokenType) :
    (tokensFrom rt i tt).length = rt.length := by
  induction rt generalizing i with
  | nil => rfl
  | cons f rest ih => simp [tokensFrom, ih]

theorem tokensOf_length (rt : List Field) (tt : TokenType) :
    (tokensOf rt tt).length = rt.length :=
  tokensFrom_length rt 0 tt

theorem Tokenize_eq_commaJoin (rt : List Field) (tt : TokenType) :
    Tokenize rt tt = "(" ++ commaJoin (tokensOf rt tt) ++ ")" := by
  unfold Tokenize tokensOf
  rw [writeTokens_eq_commaJoin]

theorem tokensFrom_ordinal (rt : List Field) (i : Nat) :
    tokensFrom rt i .ordinalNumber
      = (List.range' (i + 1) rt.length).map fun n => "$" ++ toString n := by
  induction rt generalizing i with
  | nil => rfl
  | cons f rest ih =>
    simp [tokensFrom, List.range'_succ, fieldToken, ih]

theorem tokensOf_ordinal (rt : List Field) :
    tokensOf rt .ordinalNumber
      = (List.range rt.length).map fun j => "$" ++ toString (j + 1) := by
  rw [tokensOf, tokensFrom_ordinal, List.range'_eq_map_range]
  simp [Nat.add_comm]

theorem Tokenize_ordinal (rt : List Field) :
    Tokenize rt .ordinalNumber = ordinalGroup rt.length := by
  rw [Tokenize_eq_commaJoin, tokensOf_ordinal, ordinalGroup]

theorem paramRow_repeat {α : Type} (rest : List (Record α)) (paramRow : String) :
    paramRow ++ writeParamRows rest paramRow
      = commaJoin (List.replicate (rest.length + 1) paramRow) := by
  induction rest with
  | nil => simp [writeParamRows, List.replicate, commaJoin, String.append_empty]
  | cons r rest ih =>
    simp only [writeParamRows, List.length_cons, List.replicate_succ, commaJoin]
    rw [List.replicate_succ] at ih
    rw [← ih]
    simp [String.append_assoc]

theorem goSprintf_insert (a b c : String) :
    goSprintf "INSERT INTO %s %s VALUES %s" [a, b, c]
      = "INSERT INTO " ++ a ++ " " ++ b ++ " VALUES " ++ c := by
  apply String.ext
  have h : (goSprintf "INSERT INTO %s %s VALUES %s" [a, b, c]).data
      = "INSERT INTO ".data ++ (a.data ++ (" ".data ++ (b.data
          ++ (" VALUES ".data ++ (c.data ++ []))))) := rfl
  rw [h]
  simp [String.data_append, List.append_assoc]

theorem tokensOf_ordinal_get (rt : List Field) (i : Nat)
    (hi : i < (tokensOf rt .ordinalNumber).length) :
    (tokensOf rt .ordinalNumber).get ⟨i, hi⟩ = "$" ++ toString (i + 1) := by
  simp [tokensOf_ordinal]

theorem argsOfRow_of_length {α : Type} (k : Nat) (r : Record α) (h : r.length = k) :
    argsOfRow k r = some (fieldVals r) := by
  have hle : k ≤ r.length := h.ge
  rw [argsOfRow, if_pos hle]
  have hv : (fieldVals r).length = k := by simp [fieldVals, h]
  rw [← hv, List.take_length]

theorem mapM_argsOfRow {α : Type} (k : Nat) (l : List (Record α))
    (h : ∀ s ∈ l, s.length = k) :
    List.mapM (argsOfRow k) l = some (l.map fieldVals) := by
  induction l with
  | nil => rfl
  | cons s l ih =>
    rw [List.mapM_cons, argsOfRow_of_length k s (h s (List.mem_cons_self s l)),
      ih (fun x hx => h x (List.mem_cons_of_mem s hx))]
    rfl

theorem flatten_fieldVals_length {α : Type} (k : Nat) (l : List (Record α))
    (h : ∀ s ∈ l, s.length = k) :
    ((l.map fieldVals).flatten).length = l.length * k := by
  induction l with
  | nil => simp
  | cons s l ih =>
    have hs : s.length = k := h s (List.mem_cons_self s l)
    have ih' := ih (fun x hx => h x (List.mem_cons_of_mem s hx))
    simp [fieldVals, ih', hs, Nat.succ_mul, Nat.add_comm]

/-! ### The claims -/

/-- C1: for a non-empty slice of n identically-shaped records (structs or
struct pointers) and every value token kind, `Params` returns exactly n
repetitions of the single-row placeholder group computed from the first
record's shape, joined by commas; under the ordinal kind every row group
is `($1,...,$k)`, restarting at 1 per group. -/
theorem c1_params_batch_repetition (α : Type) (t : String) (tt : TokenType)
    (r : Record α) (rest : List (Record α))
    (_hshape : ∀ s ∈ r :: rest, recType s = recType r) :
    (Insert.Params ⟨t, .sliceVal (r :: rest)⟩ tt
        = some (commaJoin (List.replicate (r :: rest).length (Tokenize (recType r) tt)))
      ∧ Insert.Params ⟨t, .slicePtr (r :: rest)⟩ tt
        = some (commaJoin (List.replicate (r :: rest).length (Tokenize (recType r) tt))))
    ∧ Insert.Params ⟨t, .sliceVal (r :: rest)⟩ .ordinalNumber
        = some (commaJoin (List.replicate (r :: rest).length
            (ordinalGroup (recType r).length)))
    ∧ Insert.Params ⟨t, .slicePtr (r :: rest)⟩ .ordinalNumber
        = some (commaJoin (List.replicate (r :: rest).length
            (ordinalGroup (recType r).length))) := by
  have h1 : ∀ tt', Insert.Params (α := α) ⟨t, .sliceVal (r :: rest)⟩ tt'
      = some (commaJoin (List.replicate (r :: rest).length
          (Tokenize (recType r) tt'))) := by
    intro tt'
    show some (Tokenize (recType r) tt' ++ writeParamRows rest (Tokenize (recType r) tt'))
        = _
    rw [paramRow_repeat, List.length_cons]
  have h2 : ∀ tt', Insert.Params (α := α) ⟨t, .slicePtr (r :: rest)⟩ tt'
      = some (commaJoin (List.replicate (r :: rest).length
          (Tokenize (recType r) tt'))) := by
    intro tt'
    show some (Tokenize (recType r) tt' ++ writeParamRows rest (Tokenize (recType r) tt'))
        = _
    rw [paramRow_repeat, List.length_cons]
  refine ⟨⟨h1 tt, h2 tt⟩, ?_, ?_⟩
  · rw [h1 .ordinalNumber, Tokenize_ordinal]
  · rw [h2 .ordinalNumber, Tokenize_ordinal]

/-- Witness for C1 at a two-record, two-field batch under the ordinal
kind. -/
theorem c1_params_batch_repetition_witness :
    (∀ s ∈ ([[(⟨"a"⟩, 1), (⟨"b"⟩, 2)], [(⟨"a"⟩, 3), (⟨"b"⟩, 4)]] :
        List (Record Nat)),
      recType s = recType [(⟨"a"⟩, 1), (⟨"b"⟩, 2)])
    ∧ ((Insert.Params ⟨"t", .sliceVal [[(⟨"a"⟩, 1), (⟨"b"⟩, 2)], [(⟨"a"⟩, 3), (⟨"b"⟩, 4)]]⟩
          TokenType.ordinalNumber
        = some (commaJoin (List.replicate
            ([[(⟨"a"⟩, 1), (⟨"b"⟩, 2)], [(⟨"a"⟩, 3), (⟨"b"⟩, 4)]] :
              List (Record Nat)).length
            (Tokenize (recType [(⟨"a"⟩, 1), (⟨"b"⟩, 2)]) TokenType.ordinalNumber)))
      ∧ Insert.Params ⟨"t", .slicePtr [[(⟨"a"⟩, 1), (⟨"b"⟩, 2)], [(⟨"a"⟩, 3), (⟨"b"⟩, 4)]]⟩
          TokenType.ordinalNumber
        = some (commaJoin (List.replicate
            ([[(⟨"a"⟩, 1), (⟨"b"⟩, 2)], [(⟨"a"⟩, 3), (⟨"b"⟩, 4)]] :
              List (Record Nat)).length
            (Tokenize (recType [(⟨"a"⟩, 1), (⟨"b"⟩, 2)]) TokenType.ordinalNumber))))
      ∧ Insert.Params ⟨"t", .sliceVal [[(⟨"a"⟩, 1), (⟨"b"⟩, 2)], [(⟨"a"⟩, 3), (⟨"b"⟩, 4)]]⟩
          TokenType.ordinalNumber
        = some (commaJoin (List.replicate
            ([[(⟨"a"⟩, 1), (⟨"b"⟩, 2)], [(⟨"a"⟩, 3), (⟨"b"⟩, 4)]] :
              List (Record Nat)).length
            (ordinalGroup (recType [(⟨"a"⟩, 1), (⟨"b"⟩, 2)]).length)))
      ∧ Insert.Params ⟨"t", .slicePtr [[(⟨"a"⟩, 1), (⟨"b"⟩, 2)], [(⟨"a"⟩, 3), (⟨"b"⟩, 4)]]⟩
          TokenType.ordinalNumber
        = some (commaJoin (List.replicate
            ([[(⟨"a"⟩, 1), (⟨"b"⟩, 2)], [(⟨"a"⟩, 3), (⟨"b"⟩, 4)]] :
              List (Record Nat)).length
            (ordinalGroup (recType [(⟨"a"⟩, 1), (⟨"b"⟩, 2)]).length)))) :=
  ⟨by decide,
    c1_params_batch_repetition Nat "t" TokenType.ordinalNumber
      [(⟨"a"⟩, 1), (⟨"b"⟩, 2)] [[(⟨"a"⟩, 3), (⟨"b"⟩, 4)]] (by decide)⟩

/-- C2: for a non-empty slice of n records with k fields each, `Args`
returns exactly n * k values flattened in row-major order (record 1's
field values in field order, then record 2's, and so on); for a single
record (struct or pointer), `Args` returns that record's k field values
in field order, each value passed through unexamined. -/
theorem c2_args_row_major (α : Type) (t : String) (k : Nat)
    (r : Record α) (rest : List (Record α)) (single : Record α)
    (_hk : r.length = k) (hshape : ∀ s ∈ r :: rest, s.length = k) :
    (Insert.Args ⟨t, .sliceVal (r :: rest)⟩ = some (((r :: rest).map fieldVals).flatten)
      ∧ Insert.Args ⟨t, .slicePtr (r :: rest)⟩
        = some (((r :: rest).map fieldVals).flatten))
    ∧ (((r :: rest).map fieldVals).flatten).length = (r :: rest).length * k
    ∧ Insert.Args ⟨t, .value single⟩ = some (fieldVals single)
    ∧ Insert.Args ⟨t, .pointer single⟩ = some (fieldVals single) := by
  have hrk : (recType r).length = k := by simp [recType, _hk]
  have hm : List.mapM (argsOfRow (recType r).length) (r :: rest)
      = some ((r :: rest).map fieldVals) := by
    rw [hrk]
    exact mapM_argsOfRow k (r :: rest) hshape
  refine ⟨⟨?_, ?_⟩, flatten_fieldVals_length k (r :: rest) hshape, rfl, rfl⟩
  · show (List.mapM (argsOfRow (recType r).length) (r :: rest)).map List.flatten = _
    rw [hm]
    rfl
  · show (List.mapM (argsOfRow (recType r).length) (r :: rest)).map List.flatten = _
    rw [hm]
    rfl

/-- Witness for C2 at a two-record, two-field batch. -/
theorem c2_args_row_major_witness :
    (([(⟨"a"⟩, 1), (⟨"b"⟩, 2)] : Record Nat).length = 2
      ∧ ∀ s ∈ ([[(⟨"a"⟩, 1), (⟨"b"⟩, 2)], [(⟨"a"⟩, 3), (⟨"b"⟩, 4)]] :
          List (Record Nat)), s.length = 2)
    ∧ ((Insert.Args ⟨"t", .sliceVal [[(⟨"a"⟩, 1), (⟨"b"⟩, 2)], [(⟨"a"⟩, 3), (⟨"b"⟩, 4)]]⟩
          = some ((([[(⟨"a"⟩, 1), (⟨"b"⟩, 2)], [(⟨"a"⟩, 3), (⟨"b"⟩, 4)]] :
              List (Record Nat)).map fieldVals).flatten)
        ∧ Insert.Args
            ⟨"t", .slicePtr [[(⟨"a"⟩, 1), (⟨"b"⟩, 2)], [(⟨"a"⟩, 3), (⟨"b"⟩, 4)]]⟩
          = some ((([[(⟨"a"⟩, 1), (⟨"b"⟩, 2)], [(⟨"a"⟩, 3), (⟨"b"⟩, 4)]] :
              List (Record Nat)).map fieldVals).flatten))
      ∧ ((([[(⟨"a"⟩, 1), (⟨"b"⟩, 2)], [(⟨"a"⟩, 3), (⟨"b"⟩, 4)]] :
            List (Record Nat)).map fieldVals).flatten).length
          = ([[(⟨"a"⟩, 1), (⟨"b"⟩, 2)], [(⟨"a"⟩, 3), (⟨"b"⟩, 4)]] :
              List (Record Nat)).length * 2
      ∧ Insert.Args ⟨"t", .value [(⟨"a"⟩, 9), (⟨"b"⟩, 8)]⟩
          = some (fieldVals [(⟨"a"⟩, 9), (⟨"b"⟩, 8)])
      ∧ Insert.Args ⟨"t", .pointer [(⟨"a"⟩, 9), (⟨"b"⟩, 8)]⟩
          = some (fieldVals [(⟨"a"⟩, 9), (⟨"b"⟩, 8)])) :=
  ⟨⟨by decide, by decide⟩,
    c2_args_row_major Nat "t" 2 [(⟨"a"⟩, 1), (⟨"b"⟩, 2)] [[(⟨"a"⟩, 3), (⟨"b"⟩, 4)]]
      [(⟨"a"⟩, 9), (⟨"b"⟩, 8)] (by decide) (by decide)⟩

/-- C3 counterexample: on the spec's round-trip input (fields `id="x"`,
`weight=1.5`, table `t`, question-mark kind) the code produces
`INSERT INTO t (id,weight) VALUES (?,?)` — no space after the commas —
not the claimed `INSERT INTO t (id, weight) VALUES (?, ?)`. -/
theorem c3_sql_example_counterexample :
    Insert.SQL (α := GoValue) ⟨"t", .value exampleRec⟩ .questionMark
      = some "INSERT INTO t (id,weight) VALUES (?,?)"
    ∧ Insert.SQL (α := GoValue) ⟨"t", .value exampleRec⟩ .questionMark
      ≠ some "INSERT INTO t (id, weight) VALUES (?, ?)" :=
  ⟨rfl, by decide⟩

/-- C3 (amended): `SQL` is exactly the concatenation
`"INSERT INTO " ++ table ++ " " ++ Columns() ++ " VALUES " ++ Params()`
with no extra whitespace beyond the separators and no escaping or
quoting; for the two-field record `id="x"`, `weight=1.5`, table `t`,
question-mark kind, it returns `INSERT INTO t (id,weight) VALUES (?,?)`
(commas carry no following space) and `Args` returns `["x", 1.5]` in
that order. -/
theorem c3_sql_concatenation (α : Type) (ins : Insert α) (tt : TokenType) (c p : String)
    (hc : ins.Columns = some c) (hp : ins.Params tt = some p) :
    ins.SQL tt = some ("INSERT INTO " ++ ins.Table ++ " " ++ c ++ " VALUES " ++ p)
    ∧ Insert.SQL (α := GoValue) ⟨"t", .value exampleRec⟩ .questionMark
        = some "INSERT INTO t (id,weight) VALUES (?,?)"
    ∧ Insert.Args (α := GoValue) ⟨"t", .value exampleRec⟩
        = some [.str "x", .f64 (3 / 2)] := by
  refine ⟨?_, rfl, rfl⟩
  rw [Insert.SQL, hc, hp]
  show some (goSprintf "INSERT INTO %s %s VALUES %s" [ins.Table, c, p]) = _
  rw [goSprintf_insert]

/-- Witness for C3 (amended) at the round-trip input itself. -/
theorem c3_sql_concatenation_witness :
    (Insert.Columns (α := GoValue) ⟨"t", .value exampleRec⟩ = some "(id,weight)"
      ∧ Insert.Params (α := GoValue) ⟨"t", .value exampleRec⟩ .questionMark
        = some "(?,?)")
    ∧ (Insert.SQL (α := GoValue) ⟨"t", .value exampleRec⟩ .questionMark
        = some ("INSERT INTO " ++ "t" ++ " " ++ "(id,weight)" ++ " VALUES " ++ "(?,?)")
      ∧ Insert.SQL (α := GoValue) ⟨"t", .value exampleRec⟩ .questionMark
        = some "INSERT INTO t (id,weight) VALUES (?,?)"
      ∧ Insert.Args (α := GoValue) ⟨"t", .value exampleRec⟩
        = some [.str "x", .f64 (3 / 2)]) :=
  ⟨⟨rfl, rfl⟩,
    c3_sql_concatenation GoValue ⟨"t", .value exampleRec⟩ .questionMark
      "(id,weight)" "(?,?)" rfl rfl⟩

/-- C4 (the code contradicts the claim and its own documentation):
`InsertContext` is documented as using `PrepareContext` and
`ExecContext`, and the claim says the cancellation context is threaded
through both the prepare and the exec calls, but the source calls the
context-free `with.Prepare` for the prepare step.  Evaluated on the
round-trip record with context `7` against an all-succeeding executor:
the trace opens with a plain `Prepare` call and contains zero
`PrepareContext` calls; only the exec call receives the context. -/
theorem c4_insertContext_prepare_lacks_context :
    Insert.runContext (α := GoValue) ⟨"t", .value exampleRec⟩ .questionMark 7 exDBOk
      = some exOutcomeCtx
    ∧ (Insert.runContext (α := GoValue) ⟨"t", .value exampleRec⟩ .questionMark 7
        exDBOk).map (fun o => o.trace.countP fun cl => cl.isPrepareContext)
      = some 0 :=
  ⟨rfl, rfl⟩

/-- C5 counterexample: with prepare succeeding and exec failing on the
round-trip record, `Insert` does return the exec error, but the returned
statement handle is `some exStmt`, not nil — the handle (closed) IS
returned to the caller, contrary to the claim that it is not returned in
either path. -/
theorem c5_handle_returned_counterexample :
    Insert.run (α := GoValue) ⟨"t", .value exampleRec⟩ .questionMark
        exDBExecFail
      = some exOutcomeExecFail
    ∧ (Insert.run (α := GoValue) ⟨"t", .value exampleRec⟩ .questionMark
        exDBExecFail).map Outcome.retStmt ≠ some none :=
  ⟨rfl, by decide⟩

/-- C5 (amended): when prepare succeeds and the subsequent exec fails,
`Insert` returns the exec error unchanged (no wrapping, and exec is
attempted exactly once — no retry) and the handle obtained from prepare
is closed exactly once before returning; however the (closed) statement
handle IS returned to the caller on this path, as it is on the success
path — only the prepare-failure path returns a nil handle. -/
theorem c5_exec_error_propagated (α Ctx E : Type) (ins : Insert α) (tt : TokenType)
    (db : DB α Ctx E) (sqlStr : String) (stmt : Stmt) (args : List α) (e : E)
    (hsql : ins.SQL tt = some sqlStr) (hargs : ins.Args = some args)
    (hprep : db.prepare sqlStr = .ok stmt) (hexec : db.stmtExec stmt args = some e) :
    Insert.run ins tt db
      = some ⟨[.prepare sqlStr, .exec stmt args, .close stmt], some stmt, some e⟩
    ∧ ∀ o ∈ Insert.run ins tt db,
        o.retErr = some e
        ∧ o.trace.countP (fun cl => cl.isCloseOf stmt) = 1
        ∧ o.trace.countP (fun cl => cl.isExec) = 1
        ∧ o.retStmt = some stmt := by
  have h1 : Insert.run ins tt db
      = some ⟨[.prepare sqlStr, .exec stmt args, .close stmt], some stmt, some e⟩ := by
    simp [Insert.run, hsql, hprep, hargs, hexec]
  refine ⟨h1, ?_⟩
  intro o ho
  rw [h1] at ho
  cases ho with
  | refl =>
    refine ⟨rfl, ?_, ?_, rfl⟩
    · simp [List.countP_cons, List.countP_nil, Call.isCloseOf]
    · simp [List.countP_cons, List.countP_nil, Call.isExec]

/-- Witness for C5 (amended) on the round-trip record against
`exDBExecFail`. -/
theorem c5_exec_error_propagated_witness :
    (Insert.SQL (α := GoValue) ⟨"t", .value exampleRec⟩ .questionMark = some exSQL
      ∧ Insert.Args (α := GoValue) ⟨"t", .value exampleRec⟩ = some exArgs
      ∧ exDBExecFail.prepare exSQL = .ok exStmt
      ∧ exDBExecFail.stmtExec exStmt exArgs = some "exec failed")
    ∧ (Insert.run (α := GoValue) ⟨"t", .value exampleRec⟩ .questionMark exDBExecFail
        = some ⟨[.prepare exSQL, .exec exStmt exArgs, .close exStmt], some exStmt,
            some "exec failed"⟩
      ∧ ∀ o ∈ Insert.run (α := GoValue) ⟨"t", .value exampleRec⟩ .questionMark
          exDBExecFail,
          o.retErr = some "exec failed"
          ∧ o.trace.countP (fun cl => cl.isCloseOf exStmt) = 1
          ∧ o.trace.countP (fun cl => cl.isExec) = 1
          ∧ o.retStmt = some exStmt) :=
  ⟨⟨rfl, rfl, rfl, rfl⟩,
    c5_exec_error_propagated GoValue Nat String ⟨"t", .value exampleRec⟩ .questionMark
      exDBExecFail exSQL exStmt exArgs "exec failed" rfl rfl rfl rfl⟩

/-- C6: when the executor's prepare returns an error, both `Insert` and
`InsertContext` return that same error unchanged together with a nil
statement handle, and exec is never called. -/
theorem c6_prepare_error_propagated (α Ctx E : Type) (ins : Insert α) (tt : TokenType)
    (ctx : Ctx) (db : DB α Ctx E) (sqlStr : String) (e : E)
    (hsql : ins.SQL tt = some sqlStr) (hprep : db.prepare sqlStr = .error e) :
    Insert.run ins tt db = some ⟨[.prepare sqlStr], none, some e⟩
    ∧ Insert.runContext ins tt ctx db = some ⟨[.prepare sqlStr], none, some e⟩
    ∧ (∀ o ∈ Insert.run ins tt db, o.trace.countP (fun cl => cl.isExec) = 0)
    ∧ (∀ o ∈ Insert.runContext ins tt ctx db,
        o.trace.countP (fun cl => cl.isExec) = 0) := by
  have h1 : Insert.run ins tt db = some ⟨[.prepare sqlStr], none, some e⟩ := by
    simp [Insert.run, hsql, hprep]
  have h2 : Insert.runContext ins tt ctx db = some ⟨[.prepare sqlStr], none, some e⟩ := by
    simp [Insert.runContext, hsql, hprep]
  refine ⟨h1, h2, ?_, ?_⟩
  · intro o ho
    rw [h1] at ho
    cases ho with
    | refl => simp [List.countP_cons, List.countP_nil, Call.isExec]
  · intro o ho
    rw [h2] at ho
    cases ho with
    | refl => simp [List.countP_cons, List.countP_nil, Call.isExec]

/-- Witness for C6 on the round-trip record against `exDBPrepFail` with
context `7`. -/
theorem c6_prepare_error_propagated_witness :
    (Insert.SQL (α := GoValue) ⟨"t", .value exampleRec⟩ .questionMark = some exSQL
      ∧ exDBPrepFail.prepare exSQL = .error "prepare failed")
    ∧ (Insert.run (α := GoValue) ⟨"t", .value exampleRec⟩ .questionMark exDBPrepFail
        = some ⟨[.prepare exSQL], none, some "prepare failed"⟩
      ∧ Insert.runContext (α := GoValue) ⟨"t", .value exampleRec⟩ .questionMark 7
          exDBPrepFail
        = some ⟨[.prepare exSQL], none, some "prepare failed"⟩
      ∧ (∀ o ∈ Insert.run (α := GoValue) ⟨"t", .value exampleRec⟩ .questionMark
            exDBPrepFail,
          o.trace.countP (fun cl => cl.isExec) = 0)
      ∧ (∀ o ∈ Insert.runContext (α := GoValue) ⟨"t", .value exampleRec⟩ .questionMark 7
            exDBPrepFail,
          o.trace.countP (fun cl => cl.isExec) = 0)) :=
  ⟨⟨rfl, rfl⟩,
    c6_prepare_error_propagated GoValue Nat String ⟨"t", .value exampleRec⟩ .questionMark
      7 exDBPrepFail exSQL "prepare failed" rfl rfl⟩

/-- C7: for every record type with k fields (k ≥ 1) and every token kind,
`Tokenize` produces exactly k comma-separated tokens in declared field
order (wrapped in parentheses), and for the ordinal kind the i-th token
is `$<i>`, counted 1-based. -/
theorem c7_tokenize_token_count (rt : List Field) (tt : TokenType)
    (_hk : 1 ≤ rt.length) :
    Tokenize rt tt = "(" ++ commaJoin (tokensOf rt tt) ++ ")"
    ∧ (tokensOf rt tt).length = rt.length
    ∧ ∀ i (hi : i < (tokensOf rt .ordinalNumber).length),
        (tokensOf rt .ordinalNumber).get ⟨i, hi⟩ = "$" ++ toString (i + 1) :=
  ⟨Tokenize_eq_commaJoin rt tt, tokensOf_length rt tt,
    fun i hi => tokensOf_ordinal_get rt i hi⟩

/-- Witness for C7 at a two-field record type under the ordinal kind. -/
theorem c7_tokenize_token_count_witness :
    1 ≤ ([⟨"id"⟩, ⟨"weight"⟩] : List Field).length
    ∧ (Tokenize [⟨"id"⟩, ⟨"weight"⟩] .ordinalNumber
        = "(" ++ commaJoin (tokensOf [⟨"id"⟩, ⟨"weight"⟩] .ordinalNumber) ++ ")"
      ∧ (tokensOf [⟨"id"⟩, ⟨"weight"⟩] .ordinalNumber).length
          = ([⟨"id"⟩, ⟨"weight"⟩] : List Field).length
      ∧ ∀ i (hi : i < (tokensOf [⟨"id"⟩, ⟨"weight"⟩] .ordinalNumber).length),
          (tokensOf [⟨"id"⟩, ⟨"weight"⟩] .ordinalNumber).get ⟨i, hi⟩
            = "$" ++ toString (i + 1)) :=
  ⟨by decide, c7_tokenize_token_count [⟨"id"⟩, ⟨"weight"⟩] .ordinalNumber (by decide)⟩

/-- C8: `Columns`, `Params`, and `Args` each produce identical output for
a record passed by value versus the same record passed by pointer, and
for a slice of records by value versus a slice of pointers to the same
records: reference and value records are dereferenced transparently. -/
theorem c8_value_pointer_invariance (α : Type) (t : String) (r : Record α)
    (rs : List (Record α)) (tt : TokenType) :
    (Insert.Columns ⟨t, .value r⟩ = Insert.Columns ⟨t, .pointer r⟩
      ∧ Insert.Params ⟨t, .value r⟩ tt = Insert.Params ⟨t, .pointer r⟩ tt
      ∧ Insert.Args ⟨t, .value r⟩ = Insert.Args ⟨t, .pointer r⟩)
    ∧ Insert.Columns ⟨t, .sliceVal rs⟩ = Insert.Columns ⟨t, .slicePtr rs⟩
    ∧ Insert.Params ⟨t, .sliceVal rs⟩ tt = Insert.Params ⟨t, .slicePtr rs⟩ tt
    ∧ Insert.Args ⟨t, .sliceVal rs⟩ = Insert.Args ⟨t, .slicePtr rs⟩ := by
  refine ⟨⟨rfl, rfl, rfl⟩, ?_, ?_, ?_⟩ <;> cases rs <;> rfl

/-- C9 counterexample: on a zero-field record type `Tokenize` returns the
parenthesized empty group `()`, not the empty string. -/
theorem c9_zero_fields_counterexample :
    Tokenize [] TokenType.questionMark = "()"
    ∧ Tokenize [] TokenType.questionMark ≠ "" :=
  ⟨rfl, by decide⟩

/-- C9 (amended): for a record type with zero fields, `Tokenize` yields a
token string containing no tokens — the literal `()` — for every token
kind, and none of `Tokenize`, `Columns`, `Params`, or `SQL` crashes on
such a zero-field record (by value or by pointer). -/
theorem c9_zero_fields_no_crash (tt : TokenType) (t : String) :
    Tokenize [] tt = "()"
    ∧ (Insert.Columns (α := Unit) ⟨t, .value []⟩ = some "()"
      ∧ Insert.Params (α := Unit) ⟨t, .value []⟩ tt = some "()"
      ∧ Insert.SQL (α := Unit) ⟨t, .value []⟩ tt
          = some ("INSERT INTO " ++ t ++ " () VALUES ()"))
    ∧ Insert.Columns (α := Unit) ⟨t, .pointer []⟩ = some "()"
    ∧ Insert.Params (α := Unit) ⟨t, .pointer []⟩ tt = some "()"
    ∧ Insert.SQL (α := Unit) ⟨t, .pointer []⟩ tt
        = some ("INSERT INTO " ++ t ++ " () VALUES ()") := by
  have htok : Tokenize [] tt = "()" := by cases tt <;> rfl
  have hsql : ∀ d : Data Unit, Insert.Columns ⟨t, d⟩ = some "()" →
      Insert.Params ⟨t, d⟩ tt = some "()" →
      Insert.SQL ⟨t, d⟩ tt = some ("INSERT INTO " ++ t ++ " () VALUES ()") := by
    intro d hc hp
    rw [Insert.SQL, hc, hp]
    show some (goSprintf "INSERT INTO %s %s VALUES %s" [t, "()", "()"]) = _
    rw [goSprintf_insert]
    congr 1
    apply String.ext
    simp [String.data_append]
  have hcv : Insert.Columns (α := Unit) ⟨t, .value []⟩ = some "()" := rfl
  have hpv : Insert.Params (α := Unit) ⟨t, .value []⟩ tt = some "()" := by
    cases tt <;> rfl
  have hcp : Insert.Columns (α := Unit) ⟨t, .pointer []⟩ = some "()" := rfl
  have hpp : Insert.Params (α := Unit) ⟨t, .pointer []⟩ tt = some "()" := by
    cases tt <;> rfl
  exact ⟨htok, ⟨hcv, hpv, hsql _ hcv hpv⟩, hcp, hpp, hsql _ hcp hpp⟩

/-- C10: a one-element slice containing a record produces exactly the
same `Columns`, `Params`, and `Args` output as the record passed
directly (and likewise for a one-element slice of pointers versus the
pointer): a singleton batch is indistinguishable from a single-record
insert. -/
theorem c10_singleton_slice_eq_single (α : Type) (t : String) (r : Record α)
    (tt : TokenType) :
    (Insert.Columns ⟨t, .sliceVal [r]⟩ = Insert.Columns ⟨t, .value r⟩
      ∧ Insert.Params ⟨t, .sliceVal [r]⟩ tt = Insert.Params ⟨t, .value r⟩ tt
      ∧ Insert.Args ⟨t, .sliceVal [r]⟩ = Insert.Args ⟨t, .value r⟩)
    ∧ Insert.Columns ⟨t, .slicePtr [r]⟩ = Insert.Columns ⟨t, .pointer r⟩
    ∧ Insert.Params ⟨t, .slicePtr [r]⟩ tt = Insert.Params ⟨t, .pointer r⟩ tt
    ∧ Insert.Args ⟨t, .slicePtr [r]⟩ = Insert.Args ⟨t, .pointer r⟩ := by
  have hargs : List.mapM (argsOfRow (recType r).length) [r] = some [fieldVals r] := by
    rw [List.mapM_cons, argsOfRow_of_length (recType r).length r (by simp [recType])]
    rfl
  refine ⟨⟨rfl, ?_, ?_⟩, rfl, ?_, ?_⟩
  · simp [Insert.Params, writeParamRows, String.append_empty]
  · show (List.mapM (argsOfRow (recType r).length) [r]).map List.flatten
        = some (fieldVals r)
    rw [hargs]
    simp
  · simp [Insert.Params, writeParamRows, String.append_empty]
  · show (List.mapM (argsOfRow (recType r).length) [r]).map List.flatten
        = some (fieldVals r)
    rw [hargs]
    simp

end SqlInsert
